import Mathlib

/-!
Shallow embedding of the admin-bro-sequelizejs adapter core:
the filter translator (src/utils/convert-filter.js) and the
Resource class (resource.js: parseParams, find, create, update).
JavaScript objects are modelled as lookup functions from keys to
optional values; object-literal spread with a later spread
overwriting earlier literal keys is modelled by spreadOver.
-/

/-! ## JavaScript number coercion -/

def isDig (c : Char) : Bool := decide ('0' ≤ c) && decide (c ≤ '9')

def digitVal (c : Char) : ℕ := c.toNat - 48

def digitsVal (l : List Char) : ℕ := l.foldl (fun a c => 10 * a + digitVal c) 0

/-- Parses an unsigned decimal fragment (digits, optionally a dot and more
digits) as the JS Number grammar does; none models NaN. -/
def parseDecFrag (l : List Char) : Option ℚ :=
  let ip := l.takeWhile isDig
  let rest := l.dropWhile isDig
  match rest with
  | [] => if ip.isEmpty then none else some (digitsVal ip : ℚ)
  | '.' :: fp =>
      if fp.all isDig && !(ip.isEmpty && fp.isEmpty) then
        some ((digitsVal ip : ℚ) + (digitsVal fp : ℚ) / ((10 : ℚ) ^ fp.length))
      else none
  | _ => none

def isJsSpace (c : Char) : Bool :=
  c = ' ' ∨ c = '\t' ∨ c = '\n' ∨ c = '\r' ∨ c = '\x0b' ∨ c = '\x0c'

/-- Leading and trailing whitespace removal on a character list. -/
def trimChars (l : List Char) : List Char :=
  ((l.dropWhile isJsSpace).reverse.dropWhile isJsSpace).reverse

/-- Model of the JS Number() builtin applied to a string (ECMAScript
StringNumericLiteral): whitespace is trimmed, the empty string coerces to 0,
signed decimal literals parse, everything else is NaN (none). Hex, binary,
exponent and Infinity forms are omitted; no claim depends on them. -/
def jsToNumber (s : String) : Option ℚ :=
  match trimChars s.data with
  | [] => some 0
  | '+' :: rest => parseDecFrag rest
  | '-' :: rest => (parseDecFrag rest).map (fun q => -q)
  | l => parseDecFrag l

/-! ## JavaScript filter values -/

/-- A filter clause value as admin-bro supplies it: a scalar string, or a
date-range object with optional lower and upper bound fields. -/
inductive JsVal where
  | vStr : String → JsVal
  | vRange : Option String → Option String → JsVal
deriving DecidableEq

/-- JS String() coercion of a filter value; a plain object stringifies to
the usual object placeholder text. -/
def jsToString : JsVal → String
  | .vStr s => s
  | .vRange _ _ => "[object Object]"

/-- JS Number() coercion of a filter value; objects coerce to NaN. -/
def jsNumberOf : JsVal → Option ℚ
  | .vStr s => jsToNumber s
  | .vRange _ _ => none

/-- Reading the from field of a value; undefined on a string. -/
def jsGetFrom : JsVal → Option String
  | .vStr _ => none
  | .vRange f _ => f

/-- Reading the to field of a value; undefined on a string. -/
def jsGetTo : JsVal → Option String
  | .vStr _ => none
  | .vRange _ t => t

/-- JS truthiness of an optional string field: undefined and the empty
string are falsy, every other string is truthy. -/
def truthy : Option String → Bool
  | none => false
  | some s => decide (s ≠ "")

/-! ## The escape-regexp dependency -/

/-- Characters replaced by the escape-regexp npm module (its regex character
class of metacharacters). -/
def isRegexMeta (c : Char) : Bool :=
  c ∈ ['.', '*', '+', '?', '=', '^', '!', ':', '$', '\x7b', '\x7d',
       '(', ')', '|', '[', ']', '/', '\\']

/-- Embedding of the escape-regexp module on the character list of a
string: each metacharacter is preceded by a backslash. -/
def escList : List Char → List Char
  | [] => []
  | c :: cs => if isRegexMeta c then '\\' :: c :: escList cs else c :: escList cs

/-- Embedding of the escape-regexp module required by convert-filter.js. -/
def escape (s : String) : String := ⟨escList s.data⟩

/-! ## SQL LIKE pattern semantics -/

/-- Semantics of a SQL LIKE pattern (MySQL and PostgreSQL default rules):
a percent sign matches any sequence, an underscore matches any single
character, a backslash escapes the following pattern character to a
literal, any other character matches itself. -/
def likeMatch : List Char → List Char → Bool
  | [], s => s.isEmpty
  | c :: ps, s =>
    if c = '%' then s.tails.any (fun t => likeMatch ps t)
    else if c = '\\' then
      match ps, s with
      | c2 :: ps2, d :: s2 => decide (d = c2) && likeMatch ps2 s2
      | _ :: _, [] => false
      | [], d :: s2 => decide (d = '\\') && s2.isEmpty
      | [], [] => false
    else if c = '_' then
      match s with
      | _ :: s2 => likeMatch ps s2
      | [] => false
    else
      match s with
      | d :: s2 => decide (d = c) && likeMatch ps s2
      | [] => false

/-! ## Sequelize condition values -/

/-- Embedding of the sequelize expression builders used by
convert-filter.js: col, literal strings, and fn applications. -/
inductive SqlExpr where
  | col : String → SqlExpr
  | str : String → SqlExpr
  | fn : String → SqlExpr → SqlExpr
deriving DecidableEq

/-- Embedding of a sequelize where(lhs, obj-with-Op.like-rhs) raw
sub-condition as built by the string branch of convertFilter. -/
structure WhereLike where
  lhs : SqlExpr
  rhs : SqlExpr
deriving DecidableEq

/-- A key of the condition object returned by convertFilter: either the
Op.and symbol or a plain property-name string key. -/
inductive CKey where
  | opAnd : CKey
  | name : String → CKey
deriving DecidableEq

/-- A value stored in the condition object: a numeric equality, a range
object holding the Op.gte and Op.lte bounds actually spread in, the raw
filter value (default equality branch), or the array of where
sub-conditions under Op.and. -/
inductive CVal where
  | num : ℚ → CVal
  | rangeV : Option String → Option String → CVal
  | raw : JsVal → CVal
  | whereList : List WhereLike → CVal
deriving DecidableEq

/-- A JS object, modelled extensionally as a key lookup function. -/
def JsObj : Type := CKey → Option CVal

def objEmpty : JsObj := fun _ => none

def objSingle (k : CKey) (v : CVal) : JsObj :=
  fun k2 => if k2 = k then some v else none

/-- Object literal of the shape with some literal entries followed by a
spread of memo: the spread is written last, so on a key collision the
entry coming from memo wins (later assignment overwrites). -/
def spreadOver (base memo : JsObj) : JsObj :=
  fun k => match memo k with
  | some v => some v
  | none => base k

/-! ## property.js metadata and filter clauses -/

/-- Property metadata (name, type tag, editability). Modelled from the
spec: src/property.js is not in the sources, only its interface is used
(name(), type(), isEditable()); spec section 3 describes exactly these
three attributes. -/
structure Property where
  name : String
  type : String
  isEditable : Bool
deriving DecidableEq

/-- One entry of the filter consumed by convertFilter: the destructured
property and value fields. -/
structure FilterClause where
  property : Property
  value : JsVal
deriving DecidableEq

/-! ## convert-filter.js -/

/-- The reduce callback of convertFilter: dispatch on property.type(),
returning a new object literal that spreads the accumulated memo after
the literal entry (so memo entries win on key collision). -/
def convertStep (memo : JsObj) (c : FilterClause) : JsObj :=
  if c.property.type = "string" then
    spreadOver
      (objSingle .opAnd (.whereList
        [⟨.fn "LOWER" (.col c.property.name),
          .fn "LOWER" (.str ("%" ++ escape (jsToString c.value) ++ "%"))⟩]))
      memo
  else if c.property.type = "number" then
    match jsNumberOf c.value with
    | some q => spreadOver (objSingle (.name c.property.name) (.num q)) memo
    | none => memo
  else if c.property.type = "date" ∨ c.property.type = "datetime" then
    if truthy (jsGetFrom c.value) || truthy (jsGetTo c.value) then
      spreadOver
        (objSingle (.name c.property.name)
          (.rangeV (if truthy (jsGetFrom c.value) then jsGetFrom c.value else none)
                   (if truthy (jsGetTo c.value) then jsGetTo c.value else none)))
        memo
    else
      spreadOver (objSingle (.name c.property.name) (.raw c.value)) memo
  else
    spreadOver (objSingle (.name c.property.name) (.raw c.value)) memo

/-- Embedding of convertFilter: a falsy (absent) filter yields the empty
condition, otherwise the clauses are reduced from the empty object. -/
def convertFilter : Option (List FilterClause) → JsObj
  | none => objEmpty
  | some cs => cs.foldl convertStep objEmpty

/-- The single literal key written by one reduce step: the Op.and symbol
for a string clause and the property-name key for every other branch. -/
def stepKey (c : FilterClause) : CKey :=
  if c.property.type = "string" then .opAnd else .name c.property.name

/-! ## resource.js data model -/

inductive SeqDataType where
  | virtual : SeqDataType
  | plain : String → SeqDataType
deriving DecidableEq

structure RawAttr where
  type : SeqDataType
deriving DecidableEq

/-- The slice of a sequelize model that resource.js reads in find:
its name and its fieldRawAttributesMap. -/
structure SeqModel where
  name : String
  fieldRawAttributesMap : List (String × RawAttr)
deriving DecidableEq

/-- JS property lookup on the attributes map object. -/
def lookupAttr (m : SeqModel) (k : String) : Option RawAttr :=
  (m.fieldRawAttributesMap.find? (fun p => p.1 = k)).map (fun p => p.2)

/-- The Resource adapter: holds the wrapped model; its properties() list
is modelled directly as the list of Property metadata that the missing
property.js would build from the raw attributes. -/
structure Resource where
  model : SeqModel
  properties : List Property

/-! ## parseParams -/

/-- A raw parameter mapping from field names to client-supplied string
values, modelled extensionally; none stands for an absent key. -/
def Params : Type := String → Option String

/-- One iteration of the parseParams property loop: the value is read
first, then the empty-string rule for number, float and reference types
deletes the key, then the editability rule deletes the key. -/
def parseParamsStep (params : Params) (p : Property) : Params :=
  let afterNum : Params :=
    if (p.type = "number" ∨ p.type = "float" ∨ p.type = "reference")
        ∧ params p.name = some "" then
      fun k => if k = p.name then none else params k
    else params
  if p.isEditable then afterNum
  else fun k => if k = p.name then none else afterNum k

/-- Embedding of Resource.parseParams: a shallow copy of params filtered
through every declared property in order. The embedding is pure, so the
source making the changes on a copy shows up as the input mapping being
left untouched and a new mapping being returned. -/
def Resource.parseParams (r : Resource) (params : Params) : Params :=
  r.properties.foldl parseParamsStep params

/-! ## find, create, update -/

/-- A thrown JS error: an Error built by resource.js, or a TypeError
raised by the runtime on an undefined property access. -/
inductive JsError where
  | jsError : String → JsError
  | typeError : String → JsError
deriving DecidableEq

/-- The sort option destructured by find. -/
structure SortSpec where
  direction : Option String
  sortBy : Option String
deriving DecidableEq

/-- The options argument of find; absent fields fall back to the
defaults in the destructuring (limit 20, offset 0, sort empty). -/
structure FindOptions where
  limit : Option ℕ
  offset : Option ℕ
  sort : Option SortSpec
deriving DecidableEq

/-- The findAll query description that find hands to the storage
collaborator when it does not throw first. -/
structure FindQuery where
  whereObj : JsObj
  limit : ℕ
  offset : ℕ
  orderBy : String
  orderDir : String

/-- The message template of the virtual-sort error thrown by find. -/
def virtualSortMessage (sortKey resName : String) : String :=
  "Cannot sort on VIRTUAL Datatype \"" ++ sortKey ++ "\" on resource \""
    ++ resName
    ++ "\"! You can provide a different sort by field to avoid this issue, see: https://adminbro.com/ResourceOptions.html#sort"

/-- Message of the TypeError the JS runtime raises when the undefined
result of the attributes-map lookup is dereferenced for its type field. -/
def undefinedTypeMessage : String :=
  "Cannot read properties of undefined (reading type)"

/-- Embedding of Resource.find up to the storage call: the sort option is
destructured with defaults, the raw attributes map is indexed by sortBy
(JS coerces an undefined key to the string undefined), the virtual check
runs on the lookup result, and on success the built findAll query is
returned. An error result models a synchronous throw before any storage
query is issued. -/
def Resource.find (r : Resource) (filter : Option (List FilterClause))
    (opts : FindOptions) : Except JsError FindQuery :=
  let sort := opts.sort.getD ⟨none, none⟩
  let sortKey := sort.sortBy.getD "undefined"
  match lookupAttr r.model sortKey with
  | none => .error (.typeError undefinedTypeMessage)
  | some attr =>
    if attr.type = .virtual then
      .error (.jsError (virtualSortMessage sortKey r.model.name))
    else
      .ok { whereObj := convertFilter filter
            limit := opts.limit.getD 20
            offset := opts.offset.getD 0
            orderBy := sortKey
            orderDir := (match sort.direction with
              | some d => if d = "" then "asc" else d
              | none => "asc").toUpper }

/-- One per-field message of a sequelize validation error. -/
structure FieldError where
  path : String
  message : String
deriving DecidableEq

/-- The storage error shape inspected by resource.js: the error class
name and, for validation errors, the per-field error items. -/
structure SeqError where
  name : String
  errors : List FieldError
deriving DecidableEq

def SEQUELIZE_VALIDATION_ERROR : String := "SequelizeValidationError"

/-- What create and update throw: either the structured validation error
or the original storage error re-thrown as is. -/
inductive Thrown where
  | validation : List (String × String) → Thrown
  | raw : SeqError → Thrown
deriving DecidableEq

/-- Modelled from the spec: src/utils/create-validation-error.js is not
in the sources; per the spec it translates a storage field-validation
failure into a structured error carrying one message per invalid field. -/
def createValidationError (e : SeqError) : Thrown :=
  .validation (e.errors.map (fun fe => (fe.path, fe.message)))

/-- A persisted record, modelled by its toJSON payload. -/
abbrev RecJson : Type := List (String × String)

/-- Embedding of Resource.create: params are normalized, the storage
collaborator (SequelizeModel.create, passed as a function) is invoked,
and a thrown storage error is translated when its name is the sequelize
validation error name and re-thrown unchanged otherwise. -/
def Resource.create (r : Resource)
    (seqCreate : Params → Except SeqError RecJson)
    (params : Params) : Except Thrown RecJson :=
  match seqCreate (r.parseParams params) with
  | .ok rec => .ok rec
  | .error e =>
    .error (if e.name = SEQUELIZE_VALIDATION_ERROR
            then createValidationError e else .raw e)

/-- The try block of Resource.update: the storage update call followed by
the findById re-read whose toJSON is returned; the first storage error
aborts the block. -/
def Resource.updateAttempt (r : Resource)
    (seqUpdate : Params → Except SeqError Unit)
    (seqFindById : String → Except SeqError RecJson)
    (id : String) (params : Params) : Except SeqError RecJson :=
  match seqUpdate (r.parseParams params) with
  | .error e => .error e
  | .ok _ => seqFindById id

/-- Embedding of Resource.update: same catch clause as create around the
update-then-findById try block. -/
def Resource.update (r : Resource)
    (seqUpdate : Params → Except SeqError Unit)
    (seqFindById : String → Except SeqError RecJson)
    (id : String) (params : Params) : Except Thrown RecJson :=
  match r.updateAttempt seqUpdate seqFindById id params with
  | .ok rec => .ok rec
  | .error e =>
    .error (if e.name = SEQUELIZE_VALIDATION_ERROR
            then createValidationError e else .raw e)

/-! ## substring containment helper for error messages -/

/-- Boolean test that the first list begins with the second. -/
def beginsWith : List Char → List Char → Bool
  | [], _ => true
  | _ :: _, [] => false
  | c :: cs, d :: ds => decide (d = c) && beginsWith cs ds

/-- Boolean test that needle occurs inside hay. -/
def strHasSub (hay needle : String) : Bool :=
  hay.data.tails.any (fun t => beginsWith needle.data t)

/-! ## Helper lemmas about the object model -/

lemma spreadOver_of_some {base memo : JsObj} {k : CKey} {x : CVal}
    (h : memo k = some x) : spreadOver base memo k = some x := by
  simp [spreadOver, h]

lemma spreadOver_of_none {base memo : JsObj} {k : CKey}
    (h : memo k = none) : spreadOver base memo k = base k := by
  simp [spreadOver, h]

lemma objSingle_self (k : CKey) (v : CVal) : objSingle k v k = some v := by
  simp [objSingle]

lemma objSingle_other {k k2 : CKey} (v : CVal) (h : k2 ≠ k) :
    objSingle k v k2 = none := by
  simp [objSingle, h]

lemma spreadOver_single_ne {memo : JsObj} {k lit : CKey} {v : CVal}
    (h : k ≠ lit) : spreadOver (objSingle lit v) memo k = memo k := by
  cases hm : memo k with
  | some w => simp [spreadOver, hm]
  | none => simp [spreadOver, hm, objSingle, h]

/-! ## Helper lemmas about convertStep and the fold -/

lemma convertStep_string (memo : JsObj) (c : FilterClause)
    (h : c.property.type = "string") :
    convertStep memo c = spreadOver
      (objSingle .opAnd (.whereList
        [⟨.fn "LOWER" (.col c.property.name),
          .fn "LOWER" (.str ("%" ++ escape (jsToString c.value) ++ "%"))⟩]))
      memo := by
  simp [convertStep, h]

lemma convertStep_number (memo : JsObj) (c : FilterClause)
    (h : c.property.type = "number") :
    convertStep memo c = (match jsNumberOf c.value with
      | some q => spreadOver (objSingle (.name c.property.name) (.num q)) memo
      | none => memo) := by
  have h1 : c.property.type ≠ "string" := by rw [h]; decide
  simp [convertStep, h1, h]

lemma convertStep_date (memo : JsObj) (c : FilterClause)
    (hdt : c.property.type = "date" ∨ c.property.type = "datetime") :
    convertStep memo c =
      (if truthy (jsGetFrom c.value) || truthy (jsGetTo c.value) then
        spreadOver
          (objSingle (.name c.property.name)
            (.rangeV (if truthy (jsGetFrom c.value) then jsGetFrom c.value else none)
                     (if truthy (jsGetTo c.value) then jsGetTo c.value else none)))
          memo
      else
        spreadOver (objSingle (.name c.property.name) (.raw c.value)) memo) := by
  have h1 : c.property.type ≠ "string" := by
    rcases hdt with h | h <;> rw [h] <;> decide
  have h2 : c.property.type ≠ "number" := by
    rcases hdt with h | h <;> rw [h] <;> decide
  simp [convertStep, h1, h2, hdt]

lemma convertStep_ne_key (memo : JsObj) (c : FilterClause) (k : CKey)
    (h : k ≠ stepKey c) : convertStep memo c k = memo k := by
  by_cases h1 : c.property.type = "string"
  · rw [convertStep_string memo c h1]
    have hk : k ≠ CKey.opAnd := by
      simpa [stepKey, h1] using h
    exact spreadOver_single_ne hk
  · have hk : k ≠ CKey.name c.property.name := by
      simpa [stepKey, h1] using h
    by_cases h2 : c.property.type = "number"
    · rw [convertStep_number memo c h2]
      cases jsNumberOf c.value with
      | some q => exact spreadOver_single_ne hk
      | none => rfl
    · by_cases h3 : c.property.type = "date" ∨ c.property.type = "datetime"
      · rw [convertStep_date memo c h3]
        by_cases h4 : (truthy (jsGetFrom c.value) || truthy (jsGetTo c.value)) = true
        · rw [if_pos h4]; exact spreadOver_single_ne hk
        · rw [if_neg h4]; exact spreadOver_single_ne hk
      · have : convertStep memo c =
            spreadOver (objSingle (.name c.property.name) (.raw c.value)) memo := by
          simp [convertStep, h1, h2, h3]
        rw [this]; exact spreadOver_single_ne hk

lemma convertStep_keeps_some (memo : JsObj) (c : FilterClause) (k : CKey) (x : CVal)
    (h : memo k = some x) : convertStep memo c k = some x := by
  unfold convertStep
  split
  · exact spreadOver_of_some h
  · split
    · cases jsNumberOf c.value with
      | some q => exact spreadOver_of_some h
      | none => exact h
    · split
      · split
        · exact spreadOver_of_some h
        · exact spreadOver_of_some h
      · exact spreadOver_of_some h

lemma foldl_convertStep_avoid (cs : List FilterClause) (memo : JsObj) (k : CKey)
    (h : ∀ c ∈ cs, k ≠ stepKey c) :
    cs.foldl convertStep memo k = memo k := by
  induction cs generalizing memo with
  | nil => rfl
  | cons c cs ih =>
    rw [List.foldl_cons, ih _ (fun d hd => h d (List.mem_cons_of_mem _ hd)),
      convertStep_ne_key _ _ _ (h c (List.mem_cons_self _ _))]

lemma foldl_convertStep_keeps_some (cs : List FilterClause) (memo : JsObj)
    (k : CKey) (x : CVal) (h : memo k = some x) :
    cs.foldl convertStep memo k = some x := by
  induction cs generalizing memo with
  | nil => exact h
  | cons c cs ih =>
    rw [List.foldl_cons]
    exact ih _ (convertStep_keeps_some _ _ _ _ h)

lemma nameKey_ne_stepKey {c : FilterClause} {n : String}
    (h : c.property.name ≠ n) : (CKey.name n) ≠ stepKey c := by
  unfold stepKey
  split
  · intro hh; cases hh
  · intro hh
    injection hh with hh
    exact h hh.symm

lemma convertFilter_split (pre post : List FilterClause) (c : FilterClause) :
    convertFilter (some (pre ++ c :: post))
      = post.foldl convertStep (convertStep (pre.foldl convertStep objEmpty) c) := by
  simp [convertFilter, List.foldl_append]

/-- Common core for the name-keyed clause claims: with every other clause
naming a different property, the condition's entry at the clause's name
key is exactly what the clause's own reduce step wrote there. -/
lemma convertFilter_name_entry (pre post : List FilterClause) (c : FilterClause)
    (n : String)
    (havoid : ∀ d ∈ pre ++ post, d.property.name ≠ n) :
    convertFilter (some (pre ++ c :: post)) (.name n)
      = convertStep (pre.foldl convertStep objEmpty) c (.name n) := by
  rw [convertFilter_split]
  rw [foldl_convertStep_avoid]
  intro d hd
  exact nameKey_ne_stepKey (havoid d (List.mem_append_right _ hd))

lemma foldl_convertStep_objEmpty_name (pre : List FilterClause) (n : String)
    (havoid : ∀ d ∈ pre, d.property.name ≠ n) :
    pre.foldl convertStep objEmpty (.name n) = none := by
  rw [foldl_convertStep_avoid]
  · rfl
  · intro d hd; exact nameKey_ne_stepKey (havoid d hd)

/-! ## convertStep on literal clauses -/

lemma convertStep_number_some (memo : JsObj) (n : String) (ed : Bool)
    (v : JsVal) {q : ℚ} (hq : jsNumberOf v = some q) :
    convertStep memo ⟨⟨n, "number", ed⟩, v⟩
      = spreadOver (objSingle (.name n) (.num q)) memo := by
  rw [convertStep_number _ _ rfl]
  dsimp only
  rw [hq]

lemma convertStep_number_none (memo : JsObj) (n : String) (ed : Bool)
    (v : JsVal) (hq : jsNumberOf v = none) :
    convertStep memo ⟨⟨n, "number", ed⟩, v⟩ = memo := by
  rw [convertStep_number _ _ rfl]
  dsimp only
  rw [hq]

lemma convertStep_date_raw (memo : JsObj) (n dt : String) (ed : Bool)
    (v : JsVal) (hdt : dt = "date" ∨ dt = "datetime")
    (hf : truthy (jsGetFrom v) = false) (ht : truthy (jsGetTo v) = false) :
    convertStep memo ⟨⟨n, dt, ed⟩, v⟩
      = spreadOver (objSingle (.name n) (.raw v)) memo := by
  rw [convertStep_date _ _ hdt]
  dsimp only
  rw [hf, ht]
  rfl

lemma convertStep_date_range (memo : JsObj) (n dt : String) (ed : Bool)
    (f t : Option String) (hdt : dt = "date" ∨ dt = "datetime")
    (htr : (truthy f || truthy t) = true) :
    convertStep memo ⟨⟨n, dt, ed⟩, .vRange f t⟩
      = spreadOver
          (objSingle (.name n)
            (.rangeV (if truthy f then f else none)
                     (if truthy t then t else none)))
          memo := by
  rw [convertStep_date _ _ hdt]
  dsimp only [jsGetFrom, jsGetTo]
  rw [if_pos htr]

lemma convertStep_string_clause (memo : JsObj) (n : String) (ed : Bool)
    (v : String) :
    convertStep memo ⟨⟨n, "string", ed⟩, .vStr v⟩
      = spreadOver
          (objSingle .opAnd (.whereList
            [⟨.fn "LOWER" (.col n),
              .fn "LOWER" (.str ("%" ++ escape v ++ "%"))⟩]))
          memo :=
  convertStep_string memo _ rfl

/-! ## Claims C1 to C4 and C6 about the filter translator -/

/-- C1: the claim states that when every clause of the filter targets a
distinct property, the translated condition keeps exactly one predicate
per contributing clause, in particular with two or more string-type
clauses on different properties. The code violates this: each string
clause writes its predicate under the shared Op.and key and then spreads
the accumulated memo after that literal entry, so the memo's existing
Op.and entry overwrites the fresh one and every string predicate after
the first is silently dropped. This theorem evaluates the translator at
the failing input of two string clauses on distinct properties: the
Op.and entry holds only the firstName predicate, and the lastName clause
left no predicate anywhere (its sub-condition would also have lived
under Op.and, and the name-keyed slot stays empty). -/
theorem convertFilter_second_string_clause_lost :
    convertFilter (some
      [⟨⟨"firstName", "string", true⟩, .vStr "john"⟩,
       ⟨⟨"lastName", "string", true⟩, .vStr "doe"⟩]) .opAnd
      = some (.whereList [⟨.fn "LOWER" (.col "firstName"),
          .fn "LOWER" (.str "%john%")⟩])
    ∧ convertFilter (some
      [⟨⟨"firstName", "string", true⟩, .vStr "john"⟩,
       ⟨⟨"lastName", "string", true⟩, .vStr "doe"⟩]) (.name "lastName")
      = none := by
  constructor <;> rfl

/-- C2 (counterexample): the claim states that a date clause whose value
object carries neither a from nor a to bound contributes no entry keyed
by the property name. At the concrete input of a single date clause with
an empty bounds object the returned condition does have an entry under
that property name, refuting the claim. -/
theorem convertFilter_empty_date_bounds_entry_present :
    convertFilter (some [⟨⟨"createdAt", "date", true⟩, .vRange none none⟩])
      (.name "createdAt") ≠ none := by
  decide

/-- C2 (amended): a date or datetime clause whose value has neither a
truthy from nor a truthy to bound is not skipped; the switch case only
breaks, so control falls through to the default return and the condition
maps the property name to the raw value object itself as an equality
predicate (provided no other clause targets the same property). -/
theorem convertFilter_date_no_bounds_falls_to_equality
    (pre post : List FilterClause) (n dt : String) (ed : Bool) (v : JsVal)
    (hdt : dt = "date" ∨ dt = "datetime")
    (hf : truthy (jsGetFrom v) = false) (ht : truthy (jsGetTo v) = false)
    (havoid : ∀ d ∈ pre ++ post, d.property.name ≠ n) :
    convertFilter (some (pre ++ ⟨⟨n, dt, ed⟩, v⟩ :: post)) (.name n)
      = some (.raw v) := by
  rw [convertFilter_name_entry _ _ _ _ havoid,
    convertStep_date_raw _ _ _ _ _ hdt hf ht,
    spreadOver_of_none
      (foldl_convertStep_objEmpty_name pre n
        (fun d hd => havoid d (List.mem_append_left _ hd))),
    objSingle_self]

/-- Witness for the amended C2 at the concrete empty-bounds date clause. -/
theorem convertFilter_date_no_bounds_falls_to_equality_witness :
    convertFilter (some [⟨⟨"createdAt", "date", true⟩, .vRange none none⟩])
      (.name "createdAt") = some (.raw (.vRange none none)) :=
  convertFilter_date_no_bounds_falls_to_equality [] [] "createdAt" "date" true
    (.vRange none none) (Or.inl rfl) rfl rfl (by simp)

/-- C3: a number-type clause contributes an equality predicate keyed by
the property name holding the coerced numeric value when the JS Number
coercion succeeds, and is silently dropped, leaving no entry for that
property, when the coercion yields NaN; the translator is a total
function, so no exception is raised either way. Stated for a clause at
any position in a filter whose other clauses target other properties. -/
theorem convertFilter_number_clause (pre post : List FilterClause)
    (n : String) (ed : Bool) (v : JsVal)
    (havoid : ∀ d ∈ pre ++ post, d.property.name ≠ n) :
    (∀ q : ℚ, jsNumberOf v = some q →
      convertFilter (some (pre ++ ⟨⟨n, "number", ed⟩, v⟩ :: post)) (.name n)
        = some (.num q))
    ∧ (jsNumberOf v = none →
      convertFilter (some (pre ++ ⟨⟨n, "number", ed⟩, v⟩ :: post)) (.name n)
        = none) := by
  have hpre : pre.foldl convertStep objEmpty (.name n) = none :=
    foldl_convertStep_objEmpty_name pre n
      (fun d hd => havoid d (List.mem_append_left _ hd))
  constructor
  · intro q hq
    rw [convertFilter_name_entry _ _ _ _ havoid,
      convertStep_number_some _ _ _ _ hq, spreadOver_of_none hpre,
      objSingle_self]
  · intro hq
    rw [convertFilter_name_entry _ _ _ _ havoid,
      convertStep_number_none _ _ _ _ hq]
    exact hpre

/-- Witness for C3 at the spec's example inputs: the string 42 coerces
and yields an equality predicate on the rational 42, while the string
abc is NaN and leaves no entry. -/
theorem convertFilter_number_clause_witness :
    convertFilter (some [⟨⟨"age", "number", true⟩, .vStr "42"⟩]) (.name "age")
      = some (.num 42)
    ∧ convertFilter (some [⟨⟨"age", "number", true⟩, .vStr "abc"⟩]) (.name "age")
      = none :=
  ⟨(convertFilter_number_clause [] [] "age" true (.vStr "42") (by simp)).1
      42 (by decide),
   (convertFilter_number_clause [] [] "age" true (.vStr "abc") (by simp)).2
      (by decide)⟩

/-- C4: a number-type clause whose value is the empty string is not
dropped: JS Number of the empty string is 0, so the condition carries an
equality predicate mapping the property name to the number 0. -/
theorem convertFilter_number_empty_string_zero (pre post : List FilterClause)
    (n : String) (ed : Bool)
    (havoid : ∀ d ∈ pre ++ post, d.property.name ≠ n) :
    convertFilter (some (pre ++ ⟨⟨n, "number", ed⟩, .vStr ""⟩ :: post))
      (.name n) = some (.num 0) := by
  rw [convertFilter_name_entry _ _ _ _ havoid,
    convertStep_number_some _ _ _ _ (by decide : jsNumberOf (.vStr "") = some 0),
    spreadOver_of_none
      (foldl_convertStep_objEmpty_name pre n
        (fun d hd => havoid d (List.mem_append_left _ hd))),
    objSingle_self]

/-- Witness for C4 at a single empty-string number clause. -/
theorem convertFilter_number_empty_string_zero_witness :
    convertFilter (some [⟨⟨"age", "number", true⟩, .vStr ""⟩]) (.name "age")
      = some (.num 0) :=
  convertFilter_number_empty_string_zero [] [] "age" true (by simp)

/-- C6: a date or datetime clause carrying at least one bound produces a
range predicate under the property name whose Op.gte bound is present
exactly when from is given and whose Op.lte bound is present exactly when
to is given, with both present when both are given. Bounds are required
to be well-formed date strings (non-empty), matching the truthiness test
the code applies to them. -/
theorem convertFilter_date_range_bounds (pre post : List FilterClause)
    (n dt : String) (ed : Bool) (f t : Option String)
    (hdt : dt = "date" ∨ dt = "datetime")
    (hf : ∀ d, f = some d → d ≠ "") (ht : ∀ d, t = some d → d ≠ "")
    (hsome : f.isSome ∨ t.isSome)
    (havoid : ∀ d ∈ pre ++ post, d.property.name ≠ n) :
    convertFilter (some (pre ++ ⟨⟨n, dt, ed⟩, .vRange f t⟩ :: post)) (.name n)
      = some (.rangeV f t) := by
  have htf : truthy f = f.isSome := by
    cases f with
    | none => rfl
    | some d => simp [truthy, hf d rfl]
  have htt : truthy t = t.isSome := by
    cases t with
    | none => rfl
    | some d => simp [truthy, ht d rfl]
  have htr : (truthy f || truthy t) = true := by
    rw [htf, htt]
    rcases hsome with h | h <;> simp [h]
  have hift : (if truthy f then f else none) = f := by
    cases f with
    | none => simp
    | some d => rw [htf]; simp
  have hitt : (if truthy t then t else none) = t := by
    cases t with
    | none => simp
    | some d => rw [htt]; simp
  rw [convertFilter_name_entry _ _ _ _ havoid,
    convertStep_date_range _ _ _ _ _ _ hdt htr, hift, hitt,
    spreadOver_of_none
      (foldl_convertStep_objEmpty_name pre n
        (fun d hd => havoid d (List.mem_append_left _ hd))),
    objSingle_self]

/-- Witness for C6: a from-only clause keeps only the lower bound, and a
two-sided clause keeps both. -/
theorem convertFilter_date_range_bounds_witness :
    convertFilter (some
      [⟨⟨"createdAt", "date", true⟩, .vRange (some "2019-01-09") none⟩])
      (.name "createdAt")
      = some (.rangeV (some "2019-01-09") none)
    ∧ convertFilter (some
      [⟨⟨"updatedAt", "datetime", true⟩,
        .vRange (some "2019-01-09") (some "2019-01-22")⟩])
      (.name "updatedAt")
      = some (.rangeV (some "2019-01-09") (some "2019-01-22")) :=
  ⟨convertFilter_date_range_bounds [] [] "createdAt" "date" true
      (some "2019-01-09") none (Or.inl rfl)
      (by intro d hd; cases hd; decide) (by intro d hd; cases hd)
      (Or.inl rfl) (by simp),
   convertFilter_date_range_bounds [] [] "updatedAt" "datetime" true
      (some "2019-01-09") (some "2019-01-22") (Or.inr rfl)
      (by intro d hd; cases hd; decide) (by intro d hd; cases hd; decide)
      (Or.inl rfl) (by simp)⟩

/-! ## LIKE-pattern semantics of escaped values (for C5) -/

lemma likeMatch_pct (ps s : List Char) :
    likeMatch ('%' :: ps) s = s.tails.any (fun t => likeMatch ps t) := by
  rw [likeMatch.eq_def]
  dsimp only
  rw [if_pos rfl]

lemma likeMatch_esc_cons (c2 : Char) (ps2 : List Char) (d : Char)
    (s2 : List Char) :
    likeMatch ('\\' :: c2 :: ps2) (d :: s2)
      = (decide (d = c2) && likeMatch ps2 s2) := by
  rw [likeMatch.eq_def]
  dsimp only
  rw [if_neg (by decide : ¬('\\' : Char) = '%'),
    if_pos (rfl : ('\\' : Char) = '\\')]

lemma likeMatch_esc_nil (c2 : Char) (ps2 : List Char) :
    likeMatch ('\\' :: c2 :: ps2) [] = false := by
  rw [likeMatch.eq_def]
  dsimp only
  rw [if_neg (by decide : ¬('\\' : Char) = '%'),
    if_pos (rfl : ('\\' : Char) = '\\')]

lemma likeMatch_plain_cons (c : Char) (ps : List Char)
    (h1 : c ≠ '%') (h2 : c ≠ '\\') (h3 : c ≠ '_') (d : Char) (s2 : List Char) :
    likeMatch (c :: ps) (d :: s2) = (decide (d = c) && likeMatch ps s2) := by
  rw [likeMatch.eq_def]
  dsimp only
  rw [if_neg h1, if_neg h2, if_neg h3]

lemma likeMatch_plain_nil (c : Char) (ps : List Char)
    (h1 : c ≠ '%') (h2 : c ≠ '\\') (h3 : c ≠ '_') :
    likeMatch (c :: ps) [] = false := by
  rw [likeMatch.eq_def]
  dsimp only
  rw [if_neg h1, if_neg h2, if_neg h3]

lemma likeMatch_escList (v ps s : List Char)
    (hv : ∀ c ∈ v, c ≠ '%' ∧ c ≠ '_') :
    likeMatch (escList v ++ ps) s = true
      ↔ ∃ s2, s = v ++ s2 ∧ likeMatch ps s2 = true := by
  induction v generalizing s with
  | nil => simp [escList]
  | cons c cs ih =>
    have hc := hv c (List.mem_cons_self _ _)
    have hv2 : ∀ d ∈ cs, d ≠ '%' ∧ d ≠ '_' :=
      fun d hd => hv d (List.mem_cons_of_mem _ hd)
    by_cases hm : isRegexMeta c = true
    · have hesc : escList (c :: cs) = '\\' :: c :: escList cs := by
        rw [escList, if_pos hm]
      rw [hesc, List.cons_append, List.cons_append]
      cases s with
      | nil =>
        rw [likeMatch_esc_nil]
        simp
      | cons d s2 =>
        rw [likeMatch_esc_cons, Bool.and_eq_true, decide_eq_true_eq,
          ih s2 hv2]
        constructor
        · rintro ⟨rfl, s3, rfl, hps⟩
          exact ⟨s3, rfl, hps⟩
        · rintro ⟨s3, heq, hps⟩
          rw [List.cons_append] at heq
          injection heq with h1 h2
          exact ⟨h1, s3, h2, hps⟩
    · have hcb : c ≠ '\\' := by
        intro hh
        rw [hh] at hm
        exact hm (by decide)
      have hesc : escList (c :: cs) = c :: escList cs := by
        rw [escList, if_neg hm]
      rw [hesc, List.cons_append]
      cases s with
      | nil =>
        rw [likeMatch_plain_nil _ _ hc.1 hcb hc.2]
        simp
      | cons d s2 =>
        rw [likeMatch_plain_cons _ _ hc.1 hcb hc.2, Bool.and_eq_true,
          decide_eq_true_eq, ih s2 hv2]
        constructor
        · rintro ⟨rfl, s3, rfl, hps⟩
          exact ⟨s3, rfl, hps⟩
        · rintro ⟨s3, heq, hps⟩
          rw [List.cons_append] at heq
          injection heq with h1 h2
          exact ⟨h1, s3, h2, hps⟩

lemma likeMatch_contains_iff (v s : List Char)
    (hv : ∀ c ∈ v, c ≠ '%' ∧ c ≠ '_') :
    likeMatch ('%' :: (escList v ++ ['%'])) s = true ↔ v <:+: s := by
  rw [likeMatch_pct, List.any_eq_true]
  constructor
  · rintro ⟨t, ht, hm⟩
    rw [List.mem_tails] at ht
    rw [likeMatch_escList _ _ _ hv] at hm
    obtain ⟨s2, rfl, _⟩ := hm
    obtain ⟨pre, rfl⟩ := ht
    exact ⟨pre, s2, by simp⟩
  · rintro ⟨pre, post, rfl⟩
    refine ⟨v ++ post, ?_, ?_⟩
    · rw [List.mem_tails]
      exact ⟨pre, by simp⟩
    · rw [likeMatch_escList _ _ _ hv]
      refine ⟨post, rfl, ?_⟩
      rw [likeMatch_pct, List.any_eq_true]
      exact ⟨[], by simp [List.mem_tails], rfl⟩

/-- C5: a string-type clause yields the raw sub-condition comparing
LOWER of the column against LOWER of the percent-wrapped escaped value
under Op.like, and the escaping makes the match literal: under the
standard LIKE semantics the pattern built from any value free of the SQL
wildcard characters percent and underscore (in particular any value
whose special characters are regex metacharacters, as in the spec's
example) accepts exactly the strings containing the value as a literal
substring, never treating it as a pattern. Stated for a string clause
preceded by no other string clause, which would trigger the separate
Op.and collision defect. -/
theorem convertFilter_string_clause_literal (pre post : List FilterClause)
    (n v s : String) (ed : Bool)
    (hpre : ∀ d ∈ pre, d.property.type ≠ "string")
    (hv : ∀ c ∈ v.data, c ≠ '%' ∧ c ≠ '_') :
    convertFilter (some (pre ++ ⟨⟨n, "string", ed⟩, .vStr v⟩ :: post)) .opAnd
      = some (.whereList [⟨.fn "LOWER" (.col n),
          .fn "LOWER" (.str ("%" ++ escape v ++ "%"))⟩])
    ∧ (likeMatch ("%" ++ escape v ++ "%").data s.data = true
        ↔ v.data <:+: s.data) := by
  constructor
  · rw [convertFilter_split]
    have hopAnd : pre.foldl convertStep objEmpty .opAnd = none := by
      rw [foldl_convertStep_avoid]
      · rfl
      · intro d hd
        unfold stepKey
        rw [if_neg (hpre d hd)]
        intro hh; cases hh
    apply foldl_convertStep_keeps_some
    rw [convertStep_string_clause, spreadOver_of_none hopAnd, objSingle_self]
  · have hdata : ("%" ++ escape v ++ "%").data
        = '%' :: (escList v.data ++ ['%']) := rfl
    rw [hdata]
    exact likeMatch_contains_iff v.data s.data hv

/-- Witness for C5 at the spec's example value with regex-special
characters: the predicate structure is produced with the escaped pattern,
and at a concrete candidate string the literal-substring reading holds. -/
theorem convertFilter_string_clause_literal_witness :
    convertFilter (some [⟨⟨"email", "string", true⟩, .vStr "a.b*c"⟩]) .opAnd
      = some (.whereList [⟨.fn "LOWER" (.col "email"),
          .fn "LOWER" (.str ("%" ++ escape "a.b*c" ++ "%"))⟩])
    ∧ (likeMatch ("%" ++ escape "a.b*c" ++ "%").data "xa.b*cy".data = true
        ↔ "a.b*c".data <:+: "xa.b*cy".data) :=
  convertFilter_string_clause_literal [] [] "email" "a.b*c" "xa.b*cy" true
    (by simp) (by decide)

/-! ## Helper lemmas about parseParams (for C7) -/

lemma parseParamsStep_at (params : Params) (p : Property) (k : String) :
    parseParamsStep params p k = none ∨ parseParamsStep params p k = params k := by
  simp only [parseParamsStep]
  split_ifs with h1 h2 h3
  · by_cases hk : k = p.name
    · left; simp [hk]
    · right; simp [hk]
  · right; rfl
  · by_cases hk : k = p.name
    · left; simp [hk]
    · right; simp [hk]
  · by_cases hk : k = p.name
    · left; simp [hk]
    · right; simp [hk]

lemma parseParamsStep_sticky (params : Params) (p : Property) (k : String)
    (h : params k = none) : parseParamsStep params p k = none := by
  rcases parseParamsStep_at params p k with h2 | h2
  · exact h2
  · rw [h2]; exact h

lemma parseParamsStep_other (params : Params) (p : Property) (k : String)
    (h : p.name ≠ k) : parseParamsStep params p k = params k := by
  have h2 : ¬k = p.name := fun hh => h hh.symm
  simp only [parseParamsStep]
  split_ifs <;> simp [h2]

lemma parseParamsStep_uneditable (params : Params) (p : Property)
    (h : p.isEditable = false) : parseParamsStep params p p.name = none := by
  simp only [parseParamsStep]
  rw [if_neg (by rw [h]; exact Bool.false_ne_true)]
  simp

lemma parseParamsStep_empty_typed (params : Params) (p : Property)
    (htype : p.type = "number" ∨ p.type = "float" ∨ p.type = "reference")
    (hval : params p.name = some "") : parseParamsStep params p p.name = none := by
  have hc : (p.type = "number" ∨ p.type = "float" ∨ p.type = "reference")
      ∧ params p.name = some "" := ⟨htype, hval⟩
  simp only [parseParamsStep]
  split_ifs <;> simp_all

lemma foldl_parseParamsStep_at (props : List Property) (params : Params)
    (k : String) :
    props.foldl parseParamsStep params k = none
      ∨ props.foldl parseParamsStep params k = params k := by
  induction props generalizing params with
  | nil => exact Or.inr rfl
  | cons p ps ih =>
    rw [List.foldl_cons]
    rcases ih (parseParamsStep params p) with h | h
    · exact Or.inl h
    · rw [h]; exact parseParamsStep_at params p k

lemma foldl_parseParamsStep_sticky (props : List Property) (params : Params)
    (k : String) (h : params k = none) :
    props.foldl parseParamsStep params k = none := by
  induction props generalizing params with
  | nil => exact h
  | cons p ps ih =>
    rw [List.foldl_cons]
    exact ih _ (parseParamsStep_sticky _ _ _ h)

lemma foldl_parseParamsStep_other (props : List Property) (params : Params)
    (k : String) (h : ∀ p ∈ props, p.name ≠ k) :
    props.foldl parseParamsStep params k = params k := by
  induction props generalizing params with
  | nil => rfl
  | cons p ps ih =>
    rw [List.foldl_cons,
      ih _ (fun q hq => h q (List.mem_cons_of_mem _ hq)),
      parseParamsStep_other _ _ _ (h p (List.mem_cons_self _ _))]

/-- C7: parseParams removes every key whose property has type number,
float or reference and whose supplied value is the empty string, removes
every key whose property is not editable regardless of its value, and
passes keys naming no declared property through unchanged. The embedding
is a pure function of the input mapping, so the input itself is never
mutated and the result is a fresh mapping. -/
theorem parseParams_normalization (r : Resource) (params : Params) :
    (∀ k, (∀ p ∈ r.properties, p.name ≠ k) →
      r.parseParams params k = params k)
    ∧ (∀ p ∈ r.properties,
        (p.type = "number" ∨ p.type = "float" ∨ p.type = "reference") →
        params p.name = some "" → r.parseParams params p.name = none)
    ∧ (∀ p ∈ r.properties, p.isEditable = false →
        r.parseParams params p.name = none) := by
  refine ⟨?_, ?_, ?_⟩
  · intro k hk
    exact foldl_parseParamsStep_other _ _ _ hk
  · intro p hp htype hval
    obtain ⟨pre, post, hsplit⟩ := List.append_of_mem hp
    unfold Resource.parseParams
    rw [hsplit, List.foldl_append, List.foldl_cons]
    apply foldl_parseParamsStep_sticky
    rcases foldl_parseParamsStep_at pre params p.name with h | h
    · exact parseParamsStep_sticky _ _ _ h
    · exact parseParamsStep_empty_typed _ _ htype (h.trans hval)
  · intro p hp hed
    obtain ⟨pre, post, hsplit⟩ := List.append_of_mem hp
    unfold Resource.parseParams
    rw [hsplit, List.foldl_append, List.foldl_cons]
    exact foldl_parseParamsStep_sticky _ _ _
      (parseParamsStep_uneditable _ _ hed)

/-- Witness for C7 on a concrete resource: an empty-string number field
is removed, a non-editable field is removed despite a value, and an
undeclared key passes through. -/
theorem parseParams_normalization_witness :
    Resource.parseParams
      ⟨⟨"Users", []⟩,
        [⟨"age", "number", true⟩, ⟨"secret", "string", false⟩]⟩
      (fun k => if k = "age" then some "" else
        if k = "secret" then some "x" else
        if k = "note" then some "hello" else none) "age" = none
    ∧ Resource.parseParams
      ⟨⟨"Users", []⟩,
        [⟨"age", "number", true⟩, ⟨"secret", "string", false⟩]⟩
      (fun k => if k = "age" then some "" else
        if k = "secret" then some "x" else
        if k = "note" then some "hello" else none) "secret" = none
    ∧ Resource.parseParams
      ⟨⟨"Users", []⟩,
        [⟨"age", "number", true⟩, ⟨"secret", "string", false⟩]⟩
      (fun k => if k = "age" then some "" else
        if k = "secret" then some "x" else
        if k = "note" then some "hello" else none) "note" = some "hello" :=
  ⟨(parseParams_normalization _ _).2.1 ⟨"age", "number", true⟩
      (by decide) (Or.inl rfl) rfl,
   (parseParams_normalization _ _).2.2 ⟨"secret", "string", false⟩
      (by decide) rfl,
   (parseParams_normalization _ _).1 "note" (by decide)⟩

/-! ## Claims C8 to C10 about create, update and find -/

/-- C8: when the storage collaborator fails during create or during the
update try block, the error is translated into the structured validation
error exactly when its class name is the sequelize validation error
name, and any other error is re-thrown unchanged, never swallowed. -/
theorem create_update_error_translation (r : Resource) (params : Params)
    (id : String) (e : SeqError)
    (seqCreate : Params → Except SeqError RecJson)
    (seqUpdate : Params → Except SeqError Unit)
    (seqFindById : String → Except SeqError RecJson) :
    (seqCreate (r.parseParams params) = .error e →
      (e.name = SEQUELIZE_VALIDATION_ERROR →
        r.create seqCreate params = .error (createValidationError e))
      ∧ (e.name ≠ SEQUELIZE_VALIDATION_ERROR →
        r.create seqCreate params = .error (.raw e)))
    ∧ (r.updateAttempt seqUpdate seqFindById id params = .error e →
      (e.name = SEQUELIZE_VALIDATION_ERROR →
        r.update seqUpdate seqFindById id params
          = .error (createValidationError e))
      ∧ (e.name ≠ SEQUELIZE_VALIDATION_ERROR →
        r.update seqUpdate seqFindById id params = .error (.raw e))) := by
  constructor
  · intro h
    constructor
    · intro hn
      unfold Resource.create
      rw [h]
      dsimp only
      rw [if_pos hn]
    · intro hn
      unfold Resource.create
      rw [h]
      dsimp only
      rw [if_neg hn]
  · intro h
    constructor
    · intro hn
      unfold Resource.update
      rw [h]
      dsimp only
      rw [if_pos hn]
    · intro hn
      unfold Resource.update
      rw [h]
      dsimp only
      rw [if_neg hn]

/-- Witness for C8: a concrete validation failure is translated into the
structured per-field error, and a concrete connection error is re-thrown
unchanged by update. -/
theorem create_update_error_translation_witness :
    Resource.create ⟨⟨"Users", []⟩, []⟩
      (fun _ => .error
        ⟨"SequelizeValidationError", [⟨"email", "email must be valid"⟩]⟩)
      (fun _ => none)
      = .error (.validation [("email", "email must be valid")])
    ∧ Resource.update ⟨⟨"Users", []⟩, []⟩
      (fun _ => .error ⟨"ConnectionError", []⟩) (fun _ => .ok []) "1"
      (fun _ => none)
      = .error (.raw ⟨"ConnectionError", []⟩) :=
  ⟨((create_update_error_translation ⟨⟨"Users", []⟩, []⟩ (fun _ => none) "1"
      ⟨"SequelizeValidationError", [⟨"email", "email must be valid"⟩]⟩
      (fun _ => .error
        ⟨"SequelizeValidationError", [⟨"email", "email must be valid"⟩]⟩)
      (fun _ => .error ⟨"SequelizeValidationError",
        [⟨"email", "email must be valid"⟩]⟩)
      (fun _ => .ok [])).1 rfl).1 rfl,
   ((create_update_error_translation ⟨⟨"Users", []⟩, []⟩ (fun _ => none) "1"
      ⟨"ConnectionError", []⟩
      (fun _ => .error ⟨"ConnectionError", []⟩)
      (fun _ => .error ⟨"ConnectionError", []⟩)
      (fun _ => .ok [])).2 rfl).2 (by decide)⟩

lemma strData_append (a b : String) : (a ++ b).data = a.data ++ b.data := rfl

lemma beginsWith_append (l r : List Char) : beginsWith l (l ++ r) = true := by
  induction l with
  | nil => rfl
  | cons c cs ih => simp [beginsWith, ih]

lemma strHasSub_of_parts {hay needle : String}
    (h : ∃ pre post, pre ++ needle.data ++ post = hay.data) :
    strHasSub hay needle = true := by
  obtain ⟨pre, post, hh⟩ := h
  unfold strHasSub
  rw [List.any_eq_true]
  refine ⟨needle.data ++ post, ?_, beginsWith_append _ _⟩
  rw [List.mem_tails]
  exact ⟨pre, by rw [← hh, List.append_assoc]⟩

/-- C9: when the requested sortBy names an attribute whose type is
VIRTUAL, find throws synchronously before issuing any storage query (the
result is an error, never a built query), and the error message contains
both the offending sort field name and the resource name. -/
theorem find_virtual_sort_throws (r : Resource)
    (filter : Option (List FilterClause)) (opts : FindOptions)
    (s : String) (attr : RawAttr)
    (hs : (opts.sort.getD ⟨none, none⟩).sortBy = some s)
    (ha : lookupAttr r.model s = some attr)
    (hv : attr.type = .virtual) :
    r.find filter opts = .error (.jsError (virtualSortMessage s r.model.name))
    ∧ strHasSub (virtualSortMessage s r.model.name) s = true
    ∧ strHasSub (virtualSortMessage s r.model.name) r.model.name = true := by
  refine ⟨?_, ?_, ?_⟩
  · unfold Resource.find
    dsimp only
    rw [hs, Option.getD_some, ha]
    dsimp only
    rw [if_pos hv]
  · apply strHasSub_of_parts
    refine ⟨("Cannot sort on VIRTUAL Datatype \"").data,
      ("\" on resource \"" ++ r.model.name
        ++ "\"! You can provide a different sort by field to avoid this issue, see: https://adminbro.com/ResourceOptions.html#sort").data,
      ?_⟩
    simp [virtualSortMessage, strData_append, List.append_assoc]
  · apply strHasSub_of_parts
    refine ⟨("Cannot sort on VIRTUAL Datatype \"" ++ s
        ++ "\" on resource \"").data,
      ("\"! You can provide a different sort by field to avoid this issue, see: https://adminbro.com/ResourceOptions.html#sort").data,
      ?_⟩
    simp [virtualSortMessage, strData_append, List.append_assoc]

/-- Witness for C9 on a concrete model with a VIRTUAL name attribute. -/
theorem find_virtual_sort_throws_witness :
    Resource.find ⟨⟨"Users", [("name", ⟨.virtual⟩)]⟩, []⟩ none
      ⟨none, none, some ⟨none, some "name"⟩⟩
      = .error (.jsError (virtualSortMessage "name" "Users"))
    ∧ strHasSub (virtualSortMessage "name" "Users") "name" = true
    ∧ strHasSub (virtualSortMessage "name" "Users") "Users" = true :=
  find_virtual_sort_throws ⟨⟨"Users", [("name", ⟨.virtual⟩)]⟩, []⟩ none
    ⟨none, none, some ⟨none, some "name"⟩⟩ "name" ⟨.virtual⟩
    rfl (by decide) rfl

/-- C10: when the effective sortBy key (the given sortBy, or the string
undefined that JS coerces an absent sortBy to, as with the default empty
sort) names no attribute of the model, the attributes-map lookup yields
undefined and dereferencing its type field makes find throw a TypeError
before any storage query is issued. -/
theorem find_unknown_sort_typeerror (r : Resource)
    (filter : Option (List FilterClause)) (opts : FindOptions)
    (h : lookupAttr r.model
      ((opts.sort.getD ⟨none, none⟩).sortBy.getD "undefined") = none) :
    r.find filter opts = .error (.typeError undefinedTypeMessage) := by
  unfold Resource.find
  dsimp only
  rw [h]

/-- Witness for C10: find with every option absent (so the default empty
sort and an undefined sortBy) throws the TypeError on a model with no
attribute named undefined. -/
theorem find_unknown_sort_typeerror_witness :
    Resource.find ⟨⟨"Users", [("email", ⟨.plain "STRING"⟩)]⟩, []⟩ none
      ⟨none, none, none⟩
      = .error (.typeError undefinedTypeMessage) :=
  find_unknown_sort_typeerror ⟨⟨"Users", [("email", ⟨.plain "STRING"⟩)]⟩, []⟩
    none ⟨none, none, none⟩ (by decide)
